import Mathlib

/-!
Verification of the Pulse metrics acquisition and normalization core.

This file gives a shallow embedding, in Lean, of the metric sampling code of
the Pulse host-telemetry collector (the Linux branch of
`src/pulse/direct_os.py`, the acceleration bridge `pulse/core.py`, and the
panel-side rate computations of `pulse/panels/network.py` and
`pulse/panels/disk.py`), together with theorems settling the specified
behaviour of that code.

Python floats are embedded as rationals (all arithmetic appearing in the
embedded code is exact on the inputs considered), Python ints as `Nat`/`Int`,
Python dictionaries with a fixed key set as structures whose optionally
present keys are `Option` fields, and fallible reads as `Option`-valued
inputs supplied by the caller.
-/

namespace Pulse

/-! ## CPU sampling (`direct_os.py`, Linux branch, `get_cpu_percents`)

One entry of the list built by the inner `read_cpu_times`:
`{'busy': user + nice + system, 'total': user + nice + system + idle + iowait}`.
-/

structure CpuTimes where
  busy : Nat
  total : Nat
deriving Repr, DecidableEq

/-- The module-level mutable state of the Linux branch:
`_last_cpu_times = None` and `_last_cpu_check = 0`. -/
structure CpuState where
  lastTimes : Option (List CpuTimes)
  lastCheck : ℚ
deriving Repr, DecidableEq

/-- Initial module state (`_last_cpu_times = None`, `_last_cpu_check = 0`). -/
def initCpuState : CpuState := ⟨none, 0⟩

/-- The per-core computation of the loop
`for prev, curr in zip(_last_cpu_times, current)` in `get_cpu_percents`:
`min(100.0, (delta_busy / delta_total) * 100)` when `delta_total > 0`,
else `0.0`. -/
def cpuPercent (prev curr : CpuTimes) : ℚ :=
  let deltaBusy : ℤ := (curr.busy : ℤ) - (prev.busy : ℤ)
  let deltaTotal : ℤ := (curr.total : ℤ) - (prev.total : ℤ)
  if 0 < deltaTotal then min 100 (((deltaBusy : ℚ) / (deltaTotal : ℚ)) * 100)
  else 0

/-- `get_cpu_percents` (Linux branch of `direct_os.py`).  The caller supplies
the freshly parsed `/proc/stat` per-core times (`current = read_cpu_times()`)
and the wall clock `now = time.time()`; the function returns the produced
percentage list together with the updated module state.

Faithful to the source, including its guard
`if _last_cpu_times is None or now - _last_cpu_check > 0.1`,
which stores a new baseline and returns `[0.0] * len(current)`. -/
def get_cpu_percents (st : CpuState) (current : List CpuTimes) (now : ℚ) :
    List ℚ × CpuState :=
  match st.lastTimes with
  | none => (List.replicate current.length 0, ⟨some current, now⟩)
  | some prev =>
      if now - st.lastCheck > 1/10 then
        (List.replicate current.length 0, ⟨some current, now⟩)
      else
        (List.zipWith cpuPercent prev current, ⟨some current, now⟩)

/-! ## Network panel rates (`panels/network.py`, `NetworkPanel.update_data`) -/

/-- psutil `net_io_counters()` fields used by the panel. -/
structure NetCounters where
  bytes_sent : Nat
  bytes_recv : Nat
deriving Repr, DecidableEq

/-- `(current.bytes_sent - self.last_net.bytes_sent) / 1024` (KB); likewise
for the receive direction.  No clamping appears in the source. -/
def networkRateKB (last curr : Nat) : ℚ :=
  (((curr : ℤ) - (last : ℤ) : ℤ) : ℚ) / 1024

/-- `deque(maxlen=80).append x`: appends and keeps the 80 newest entries. -/
def dequeAppend80 (h : List ℚ) (x : ℚ) : List ℚ :=
  let h' := h ++ [x]
  h'.drop (h'.length - 80)

/-- The mutable panel state touched by `NetworkPanel.update_data`. -/
structure NetState where
  lastNet : Option NetCounters
  upHistory : List ℚ
  downHistory : List ℚ
deriving Repr, DecidableEq

/-- `NetworkPanel.update_data`: the caller supplies the result of
`psutil.net_io_counters()` (`none` when it raised, in which case the method
returns at once).  Returns the updated state and, when rates were computed,
the pair `(sent_rate, recv_rate)`.  Sparkline histories receive
`min(rate, 1000)`, the stored rate itself is unclamped. -/
def networkUpdateData (st : NetState) (current : Option NetCounters) :
    NetState × Option (ℚ × ℚ) :=
  match current with
  | none => (st, none)
  | some curr =>
      match st.lastNet with
      | none => ({ st with lastNet := some curr }, none)
      | some last =>
          let sentRate := networkRateKB last.bytes_sent curr.bytes_sent
          let recvRate := networkRateKB last.bytes_recv curr.bytes_recv
          ({ lastNet := some curr
             upHistory := dequeAppend80 st.upHistory (min sentRate 1000)
             downHistory := dequeAppend80 st.downHistory (min recvRate 1000) },
           some (sentRate, recvRate))

/-! ## Disk panel rates (`panels/disk.py`, `DiskPanel.update_data`) -/

/-- `(current.read_bytes - self.last_io.read_bytes) / (1024**2)` (MB); the
same formula is used for the write direction.  No clamping in the source. -/
def diskRateMB (last curr : Nat) : ℚ :=
  (((curr : ℤ) - (last : ℤ) : ℤ) : ℚ) / (1024 * 1024)

/-! ## Memory info (`direct_os.py`, Linux branch, `get_memory_info`)

The Python function builds a dict `mem` while scanning `/proc/meminfo`; the
whole scan is wrapped in `try: ... except Exception: pass`.  We embed the
dict as a structure whose possibly absent keys are `Option` fields, and the
read as an `Option`-valued input: `none` models a read failure (the dict
stays empty), `some lines` a successful scan of the parsed
`(key-without-colon, int(parts[1]))` pairs, one per line. -/

/-- The dict contents after the `/proc/meminfo` scan loop: each recognized
key maps to `int(parts[1]) * 1024`; later lines overwrite earlier ones, as
for a Python dict. -/
structure MemParsed where
  total : Option Nat
  available : Option Nat
  free : Option Nat
  buffers : Option Nat
  cached : Option Nat
  swap_total : Option Nat
  swap_free : Option Nat
deriving Repr, DecidableEq

def emptyMemParsed : MemParsed := ⟨none, none, none, none, none, none, none⟩

/-- One iteration of the scan loop body. -/
def memScanLine (mem : MemParsed) (kv : String × Nat) : MemParsed :=
  let value := kv.2 * 1024
  if kv.1 = "MemTotal" then { mem with total := some value }
  else if kv.1 = "MemAvailable" then { mem with available := some value }
  else if kv.1 = "MemFree" then { mem with free := some value }
  else if kv.1 = "Buffers" then { mem with buffers := some value }
  else if kv.1 = "Cached" then { mem with cached := some value }
  else if kv.1 = "SwapTotal" then { mem with swap_total := some value }
  else if kv.1 = "SwapFree" then { mem with swap_free := some value }
  else mem

/-- The dict after the guarded scan: empty on read failure. -/
def memParsed (readResult : Option (List (String × Nat))) : MemParsed :=
  match readResult with
  | none => emptyMemParsed
  | some lines => lines.foldl memScanLine emptyMemParsed

/-- The dict returned by `get_memory_info`: the scanned keys plus
`used`, `swap_used` and `percent`, which are always present. -/
structure MemInfo where
  total : Option Nat
  available : Option Nat
  free : Option Nat
  buffers : Option Nat
  cached : Option Nat
  swap_total : Option Nat
  swap_free : Option Nat
  used : ℤ
  swap_used : ℤ
  percent : ℚ
deriving Repr, DecidableEq

/-- `get_memory_info` (Linux branch).  After the guarded scan:
`mem['used'] = mem.get('total', 0) - mem.get('available', 0)`,
`mem['swap_used'] = mem.get('swap_total', 0) - mem.get('swap_free', 0)`,
`mem['percent'] = (mem['used'] / mem['total'] * 100) if mem.get('total') else 0`. -/
def get_memory_info (readResult : Option (List (String × Nat))) : MemInfo :=
  let mem := memParsed readResult
  let used : ℤ := (mem.total.getD 0 : ℤ) - (mem.available.getD 0 : ℤ)
  let swapUsed : ℤ := (mem.swap_total.getD 0 : ℤ) - (mem.swap_free.getD 0 : ℤ)
  let percent : ℚ :=
    if mem.total.getD 0 ≠ 0 then (used : ℚ) / (mem.total.getD 0 : ℚ) * 100 else 0
  ⟨mem.total, mem.available, mem.free, mem.buffers, mem.cached,
   mem.swap_total, mem.swap_free, used, swapUsed, percent⟩

/-! ## Process list (`direct_os.py`, Linux branch, `get_process_list`)

The walk iterates `os.listdir('/proc')`; entries failing `pid_str.isdigit()`
are skipped.  For a digit entry the code reads `comm`, `stat` and `statm`;
`FileNotFoundError`, `PermissionError` and `IndexError` drop the pid.  We
embed the listing as the list of directory names paired with the outcome of
those reads: `none` models any of the caught read failures. -/

/-- The fields extracted from a successful read of a pid's detail files:
`comm` (stripped), `stat[13]`, `stat[14]`, `statm[0]`. -/
structure ProcDetails where
  name : String
  utime : Nat
  stime : Nat
  memoryPages : Nat
deriving Repr, DecidableEq

/-- One dict appended to `processes`:
`{'pid': pid, 'name': name, 'cpu_percent': 0, 'memory_info': memory_pages * _PAGE_SIZE}`. -/
structure ProcessRecord where
  pid : Nat
  name : String
  cpu_percent : ℚ
  memory_info : Nat
deriving Repr, DecidableEq

/-- The record built for one successfully read pid.  `cpu_percent` is the
literal constant `0` of the source (`# Would need delta tracking per-process`). -/
def mkProcessRecord (pageSize : Nat) (pid : Nat) (d : ProcDetails) : ProcessRecord :=
  ⟨pid, d.name, 0, d.memoryPages * pageSize⟩

/-- `pid_str.isdigit()`: nonempty and all characters decimal digits. -/
def pyIsDigit (s : String) : Bool :=
  !s.data.isEmpty && s.data.all Char.isDigit

/-- `int(pid_str)` on a digit string: standard base-10 accumulation. -/
def pyParseNat (s : String) : Nat :=
  s.data.foldl (fun acc c => acc * 10 + (c.toNat - 48)) 0

/-- The enumeration loop: digit-named entries whose detail reads succeed
yield a record, every other entry is skipped. -/
def walkProcesses (pageSize : Nat) (listing : List (String × Option ProcDetails)) :
    List ProcessRecord :=
  listing.filterMap fun e =>
    if pyIsDigit e.1 then
      e.2.map fun d => mkProcessRecord pageSize (pyParseNat e.1) d
    else none

/-- Python `list.sort(key=..., reverse=True)` is a stable descending sort.
A stable sort is determined extensionally by the (total, transitive)
non-strict comparison, so we embed it as Mathlib's stable `insertionSort`
with the relation `key b ≤ key a`. -/
def sortByCpuDesc (l : List ProcessRecord) : List ProcessRecord :=
  l.insertionSort fun a b => b.cpu_percent ≤ a.cpu_percent

def sortByMemDesc (l : List ProcessRecord) : List ProcessRecord :=
  l.insertionSort fun a b => b.memory_info ≤ a.memory_info

/-- `get_process_list(sort_by=None, limit=None)` (Linux branch):
walk, optional sort (`'cpu'` by `cpu_percent`, `'mem'` by `memory_info`,
both descending), then `processes[:limit]` guarded by `if limit:`
(so `None` and `0` both mean no truncation). -/
def get_process_list (pageSize : Nat) (listing : List (String × Option ProcDetails))
    (sortBy : Option String) (limit : Option Nat) : List ProcessRecord :=
  let processes := walkProcesses pageSize listing
  let processes :=
    if sortBy = some "cpu" then sortByCpuDesc processes
    else if sortBy = some "mem" then sortByMemDesc processes
    else processes
  match limit with
  | some l => if l ≠ 0 then processes.take l else processes
  | none => processes

/-! ## Disk info (`direct_os.py`, Linux branch, `get_disk_info`)

The loop scans `/proc/mounts` entries, skips devices not starting with
`/dev/` and devices already seen, records the device in `seen` and then
calls `os.statvfs(mount)`; an `OSError` skips the entry (the device stays in
`seen`).  We embed the mount table as a list of parsed entries and `statvfs`
as an `Option`-valued function supplied by the caller. -/

structure MountEntry where
  device : String
  mountpoint : String
  fstype : String
deriving Repr, DecidableEq

/-- The `statvfs` fields the code uses. -/
structure StatvfsResult where
  f_blocks : Nat
  f_bfree : Nat
  f_frsize : Nat
deriving Repr, DecidableEq

/-- One dict appended to `disks`. -/
structure DiskEntry where
  device : String
  mountpoint : String
  fstype : String
  total : Nat
  used : ℤ
  free : Nat
  percent : ℚ
deriving Repr, DecidableEq

/-- The entry built from a successful `statvfs`:
`total = f_blocks * f_frsize`, `free = f_bfree * f_frsize`,
`used = total - free`, `percent = (used / total * 100) if total else 0`. -/
def mkDiskEntry (m : MountEntry) (st : StatvfsResult) : DiskEntry :=
  let total := st.f_blocks * st.f_frsize
  let free := st.f_bfree * st.f_frsize
  let used : ℤ := (total : ℤ) - (free : ℤ)
  ⟨m.device, m.mountpoint, m.fstype, total, used, free,
   if total ≠ 0 then (used : ℚ) / (total : ℚ) * 100 else 0⟩

/-- `device.startswith('/dev/')`: character-level prefix test. -/
def pyStartsWith (s pre : String) : Bool :=
  pre.data.isPrefixOf s.data

/-- The mount-scan loop with its `seen` set. -/
def diskLoop (statvfs : String → Option StatvfsResult) :
    List MountEntry → List String → List DiskEntry
  | [], _ => []
  | m :: rest, seen =>
      if ¬ pyStartsWith m.device "/dev/" = true ∨ m.device ∈ seen then
        diskLoop statvfs rest seen
      else
        match statvfs m.mountpoint with
        | none => diskLoop statvfs rest (m.device :: seen)
        | some st => mkDiskEntry m st :: diskLoop statvfs rest (m.device :: seen)

/-- `get_disk_info` (Linux branch): the scan starting from an empty `seen`
set.  A failure to read `/proc/mounts` itself yields `[]` via the outer
`except Exception: pass`; that case is the `mounts = []` instance. -/
def get_disk_info (statvfs : String → Option StatvfsResult)
    (mounts : List MountEntry) : List DiskEntry :=
  diskLoop statvfs mounts []

/-! ## Acceleration bridge (`pulse/core.py`)

Each wrapper tries the native accelerator (`pulse_core`, available when
`HAS_RUST`) inside `try: ... except Exception:` and otherwise calls the
supplied pure-Python fallback.  We embed one accelerator invocation as an
`Except Unit α` value (`.error` models a raised exception) and the fallback
as a Lean function. -/

/-- `core.get_cpu_percents(fallback_func)`:
`return pulse_core.get_cpu_percents() or fallback_func()` — a falsy (empty)
accelerator result also routes to the fallback. -/
def core_get_cpu_percents (hasRust : Bool) (accel : Except Unit (List ℚ))
    (fallback : Unit → List ℚ) : List ℚ :=
  if hasRust then
    match accel with
    | .ok v => if v = [] then fallback () else v
    | .error _ => fallback ()
  else fallback ()

/-- `core.get_memory_info(fallback_func)`. -/
def core_get_memory_info {α : Type} (hasRust : Bool) (accel : Except Unit α)
    (fallback : Unit → α) : α :=
  if hasRust then
    match accel with
    | .ok v => v
    | .error _ => fallback ()
  else fallback ()

/-- `core.get_process_list(sort_by=None, limit=None, fallback_func=None)`:
on an accelerator exception the fallback runs when provided; with no
fallback the function returns `[]`. -/
def core_get_process_list (hasRust : Bool)
    (accel : Option String → Option Nat → Except Unit (List ProcessRecord))
    (sortBy : Option String) (limit : Option Nat)
    (fallback : Option (Unit → List ProcessRecord)) : List ProcessRecord :=
  if hasRust then
    match accel sortBy limit with
    | .ok v => v
    | .error _ =>
        match fallback with
        | some f => f ()
        | none => []
  else
    match fallback with
    | some f => f ()
    | none => []

/-- `core.get_network_stats(fallback_func)`. -/
def core_get_network_stats {α : Type} (hasRust : Bool) (accel : Except Unit α)
    (fallback : Unit → α) : α :=
  if hasRust then
    match accel with
    | .ok v => v
    | .error _ => fallback ()
  else fallback ()

/-- `core.get_disk_info(fallback_func)`. -/
def core_get_disk_info {α : Type} (hasRust : Bool) (accel : Except Unit α)
    (fallback : Unit → α) : α :=
  if hasRust then
    match accel with
    | .ok v => v
    | .error _ => fallback ()
  else fallback ()

/-! ## Process control (`kill_process` / `renice_process`) -/

/-- Modelled from the spec: `kill_process` is absent from src/ — only its
panel call sites exist (`panels/process.py`, `panels/cpu.py`,
`panels/memory.py` call `core.kill_process(pid)` and show the returned
message).  Per spec §6 it delegates to an OS process-management primitive
and communicates success or failure as a returned result message, never an
unguarded exception.  The OS primitive is embedded as an `Except`-valued
input. -/
def kill_process (osKill : Nat → Except String Unit) (pid : Nat) : String :=
  match osKill pid with
  | .ok _ => "Process " ++ toString pid ++ " terminated"
  | .error e => "Kill failed: " ++ e

/-- Modelled from the spec: `renice_process` is absent from src/ — only its
panel call sites exist.  Per spec §6 it delegates to an OS priority
primitive and communicates success or failure as a returned result value. -/
def renice_process (osRenice : Nat → Int → Except String Unit) (pid : Nat)
    (value : Int) : String :=
  match osRenice pid value with
  | .ok _ => "Nice set to " ++ toString value ++ " for " ++ toString pid
  | .error e => "Renice failed: " ++ e

/-! ## Helper lemmas -/

theorem cpuPercent_le_100 (p c : CpuTimes) : cpuPercent p c ≤ 100 := by
  simp only [cpuPercent]
  split
  · exact min_le_left _ _
  · norm_num

theorem cpuPercent_nonneg (p c : CpuTimes) (h : p.busy ≤ c.busy) :
    0 ≤ cpuPercent p c := by
  simp only [cpuPercent]
  split
  case isTrue hlt =>
    refine le_min (by norm_num) (mul_nonneg (div_nonneg ?_ ?_) (by norm_num))
    · have : (0 : ℤ) ≤ (c.busy : ℤ) - (p.busy : ℤ) := by
        omega
      exact_mod_cast this
    · have : (0 : ℤ) ≤ (c.total : ℤ) - (p.total : ℤ) := le_of_lt hlt
      exact_mod_cast this
  case isFalse _ => exact le_refl 0

theorem networkRateKB_nonneg (l u : Nat) (h : l ≤ u) : 0 ≤ networkRateKB l u := by
  unfold networkRateKB
  refine div_nonneg ?_ (by norm_num)
  have : (0 : ℤ) ≤ (u : ℤ) - (l : ℤ) := by omega
  exact_mod_cast this

theorem diskRateMB_nonneg (l u : Nat) (h : l ≤ u) : 0 ≤ diskRateMB l u := by
  unfold diskRateMB
  refine div_nonneg ?_ (by norm_num)
  have : (0 : ℤ) ≤ (u : ℤ) - (l : ℤ) := by omega
  exact_mod_cast this

theorem memInfo_percent_le_100 (input : Option (List (String × Nat))) :
    (get_memory_info input).percent ≤ 100 := by
  simp only [get_memory_info]
  split
  case isTrue ht =>
    set t := (memParsed input).total.getD 0 with htdef
    set a := (memParsed input).available.getD 0 with hadef
    have ht' : (0 : ℚ) < (t : ℚ) := by exact_mod_cast Nat.pos_of_ne_zero ht
    have hused : ((((t : ℤ) - (a : ℤ)) : ℤ) : ℚ) ≤ (t : ℚ) := by
      push_cast
      have : (0 : ℚ) ≤ (a : ℚ) := by positivity
      linarith
    have hdiv : ((((t : ℤ) - (a : ℤ)) : ℤ) : ℚ) / (t : ℚ) ≤ 1 :=
      (div_le_one ht').mpr hused
    calc ((((t : ℤ) - (a : ℤ)) : ℤ) : ℚ) / (t : ℚ) * 100
        ≤ 1 * 100 := mul_le_mul_of_nonneg_right hdiv (by norm_num)
      _ = 100 := by ring
  case isFalse _ => norm_num

theorem memInfo_percent_nonneg (input : Option (List (String × Nat)))
    (h : (memParsed input).available.getD 0 ≤ (memParsed input).total.getD 0) :
    0 ≤ (get_memory_info input).percent := by
  simp only [get_memory_info]
  split
  case isTrue ht =>
    refine mul_nonneg (div_nonneg ?_ ?_) (by norm_num)
    · have : (0 : ℤ) ≤ ((memParsed input).total.getD 0 : ℤ) -
          ((memParsed input).available.getD 0 : ℤ) := by omega
      exact_mod_cast this
    · positivity
  case isFalse _ => exact le_refl 0

/-- Characterization of membership in the process walk. -/
theorem mem_walkProcesses {pageSize : Nat} {listing : List (String × Option ProcDetails)}
    {r : ProcessRecord} :
    r ∈ walkProcesses pageSize listing ↔
      ∃ e ∈ listing, pyIsDigit e.1 = true ∧ ∃ d, e.2 = some d ∧
        r = mkProcessRecord pageSize (pyParseNat e.1) d := by
  unfold walkProcesses
  rw [List.mem_filterMap]
  constructor
  · rintro ⟨e, he, hf⟩
    by_cases hn : pyIsDigit e.1
    · rw [if_pos hn, Option.map_eq_some'] at hf
      obtain ⟨d, hd, hr⟩ := hf
      exact ⟨e, he, hn, d, hd, hr.symm⟩
    · rw [if_neg hn] at hf
      exact absurd hf (by simp)
  · rintro ⟨e, he, hn, d, hd, hr⟩
    exact ⟨e, he, by rw [if_pos hn, hd, hr]; rfl⟩

/-- Everything `get_process_list` returns comes from the walk: the optional
sorts are permutations and the `limit` truncation is a sublist. -/
theorem mem_of_mem_get_process_list {pageSize : Nat}
    {listing : List (String × Option ProcDetails)} {sortBy : Option String}
    {limit : Option Nat} {r : ProcessRecord}
    (h : r ∈ get_process_list pageSize listing sortBy limit) :
    r ∈ walkProcesses pageSize listing := by
  have h1 : r ∈ (if sortBy = some "cpu" then sortByCpuDesc (walkProcesses pageSize listing)
      else if sortBy = some "mem" then sortByMemDesc (walkProcesses pageSize listing)
      else walkProcesses pageSize listing) := by
    rcases limit with _ | l
    · exact h
    · simp only [get_process_list] at h
      by_cases hl : l = 0
      · simpa [hl] using h
      · rw [if_pos (by exact hl)] at h
        exact List.take_subset _ _ h
  split_ifs at h1
  · simpa [sortByCpuDesc] using h1
  · simpa [sortByMemDesc] using h1
  · exact h1

theorem sorted_sortByCpuDesc (l : List ProcessRecord) :
    (sortByCpuDesc l).Sorted fun a b => b.cpu_percent ≤ a.cpu_percent := by
  haveI : IsTotal ProcessRecord (fun a b => b.cpu_percent ≤ a.cpu_percent) :=
    ⟨fun a b => le_total b.cpu_percent a.cpu_percent⟩
  haveI : IsTrans ProcessRecord (fun a b => b.cpu_percent ≤ a.cpu_percent) :=
    ⟨fun _ _ _ hab hbc => le_trans hbc hab⟩
  exact List.sorted_insertionSort _ l

theorem sorted_sortByMemDesc (l : List ProcessRecord) :
    (sortByMemDesc l).Sorted fun a b => b.memory_info ≤ a.memory_info := by
  haveI : IsTotal ProcessRecord (fun a b => b.memory_info ≤ a.memory_info) :=
    ⟨fun a b => le_total b.memory_info a.memory_info⟩
  haveI : IsTrans ProcessRecord (fun a b => b.memory_info ≤ a.memory_info) :=
    ⟨fun _ _ _ hab hbc => le_trans hbc hab⟩
  exact List.sorted_insertionSort _ l

/-- With `sort_by='cpu'` and no limit, the result is the stable descending
sort of the walk. -/
theorem get_process_list_cpu_none (pageSize : Nat)
    (listing : List (String × Option ProcDetails)) :
    get_process_list pageSize listing (some "cpu") none =
      sortByCpuDesc (walkProcesses pageSize listing) := by
  simp [get_process_list]

/-- With `sort_by='cpu'` and a limit, the result is the truncation of the
stable descending sort of the walk (`if limit:` treats `0` as no limit). -/
theorem get_process_list_cpu_some (pageSize : Nat)
    (listing : List (String × Option ProcDetails)) (l : Nat) :
    get_process_list pageSize listing (some "cpu") (some l) =
      if l ≠ 0 then (sortByCpuDesc (walkProcesses pageSize listing)).take l
      else sortByCpuDesc (walkProcesses pageSize listing) := by
  simp [get_process_list]

theorem get_process_list_mem_none (pageSize : Nat)
    (listing : List (String × Option ProcDetails)) :
    get_process_list pageSize listing (some "mem") none =
      sortByMemDesc (walkProcesses pageSize listing) := by
  simp [get_process_list]

theorem get_process_list_mem_some (pageSize : Nat)
    (listing : List (String × Option ProcDetails)) (l : Nat) :
    get_process_list pageSize listing (some "mem") (some l) =
      if l ≠ 0 then (sortByMemDesc (walkProcesses pageSize listing)).take l
      else sortByMemDesc (walkProcesses pageSize listing) := by
  simp [get_process_list]

/-! ## Claims -/

/-- Claim C1 (code_bug): the spec scenario — core-0 snapshots
`{busy:100, total:200}` observed at `t = 0` and `{busy:150, total:300}` at
`t = 1` — is claimed to yield `0.0` then `50.0`.  On the code the first
observation does return `[0.0]`, but the second, one second later, also
returns `[0.0]`: the guard `now - _last_cpu_check > 0.1` re-baselines
whenever successive calls are more than 0.1 s apart, so the delta path is
unreachable at the documented refresh cadence.  The third conjunct shows the
delta arithmetic itself would produce `[50]` were the guard not taken
(calls 0.05 s apart). -/
theorem get_cpu_percents_spec_scenario_divergence :
    (get_cpu_percents initCpuState [⟨100, 200⟩] 0).1 = [0]
    ∧ (get_cpu_percents (get_cpu_percents initCpuState [⟨100, 200⟩] 0).2
        [⟨150, 300⟩] 1).1 = [(0 : ℚ)]
    ∧ (get_cpu_percents (get_cpu_percents initCpuState [⟨100, 200⟩] 0).2
        [⟨150, 300⟩] 1).1 ≠ [(50 : ℚ)]
    ∧ (get_cpu_percents ⟨some [⟨100, 200⟩], 0⟩ [⟨150, 300⟩] (1/20)).1 = [(50 : ℚ)] := by
  refine ⟨?_, ?_, ?_, ?_⟩ <;>
    norm_num [get_cpu_percents, initCpuState, cpuPercent]

/-- Claim C2 (counterexample): with the stored baseline `{busy:100, total:200}`
and a current snapshot `{busy:50, total:300}` (busy counter decreased, as
after a wraparound) observed 0.05 s later, `get_cpu_percents` returns `[-50]`
— a negative percentage, not clamped to `[0, 100]`; likewise a decreasing
byte counter makes the network panel rate negative. -/
theorem sampler_negative_on_decreasing_counters :
    (get_cpu_percents ⟨some [⟨100, 200⟩], 0⟩ [⟨50, 300⟩] (1/20)).1 = [(-50 : ℚ)]
    ∧ ((-50 : ℚ) < 0)
    ∧ networkRateKB 2048 1024 = -1
    ∧ ((-1 : ℚ) < 0) := by
  refine ⟨?_, by norm_num, ?_, by norm_num⟩ <;>
    norm_num [get_cpu_percents, cpuPercent, networkRateKB]

/-- Claim C2 (amended): rates and percentages are not clamped below — a
decreasing counter yields a negative CPU percentage or network/disk rate.
What does hold: CPU percentages never exceed 100 and are nonnegative
whenever the busy counter did not decrease; network and disk rates are
nonnegative whenever the byte counters did not decrease; the memory
percentage never exceeds 100 and is nonnegative whenever the parsed
`available` does not exceed the parsed `total`. -/
theorem sampler_bounds_amended :
    (∀ p c : CpuTimes, cpuPercent p c ≤ 100)
    ∧ (∀ p c : CpuTimes, p.busy ≤ c.busy → 0 ≤ cpuPercent p c)
    ∧ (∀ l u : Nat, l ≤ u → 0 ≤ networkRateKB l u)
    ∧ (∀ l u : Nat, l ≤ u → 0 ≤ diskRateMB l u)
    ∧ (∀ input, (get_memory_info input).percent ≤ 100)
    ∧ (∀ input, (memParsed input).available.getD 0 ≤ (memParsed input).total.getD 0 →
        0 ≤ (get_memory_info input).percent) :=
  ⟨cpuPercent_le_100, cpuPercent_nonneg, networkRateKB_nonneg, diskRateMB_nonneg,
   memInfo_percent_le_100, memInfo_percent_nonneg⟩

/-- Witness for the amended C2 at concrete inputs. -/
theorem sampler_bounds_amended_witness :
    cpuPercent ⟨100, 200⟩ ⟨150, 300⟩ ≤ 100
    ∧ (0 : ℚ) ≤ cpuPercent ⟨100, 200⟩ ⟨150, 300⟩
    ∧ (0 : ℚ) ≤ networkRateKB 1000 1500
    ∧ (0 : ℚ) ≤ diskRateMB 0 1048576
    ∧ (get_memory_info (some [("MemTotal", 100), ("MemAvailable", 50)])).percent ≤ 100
    ∧ (0 : ℚ) ≤ (get_memory_info (some [("MemTotal", 100), ("MemAvailable", 50)])).percent :=
  ⟨sampler_bounds_amended.1 ⟨100, 200⟩ ⟨150, 300⟩,
   sampler_bounds_amended.2.1 ⟨100, 200⟩ ⟨150, 300⟩ (by norm_num),
   sampler_bounds_amended.2.2.1 1000 1500 (by norm_num),
   sampler_bounds_amended.2.2.2.1 0 1048576 (by norm_num),
   sampler_bounds_amended.2.2.2.2.1 (some [("MemTotal", 100), ("MemAvailable", 50)]),
   sampler_bounds_amended.2.2.2.2.2 (some [("MemTotal", 100), ("MemAvailable", 50)])
     (by simp [memParsed, memScanLine, emptyMemParsed])⟩

/-- Claim C3 (counterexample): `cpu_percent` does not depend on the observed
tick counters — two enumerations of pid 1 whose user+system ticks differ by
200 both report `cpu_percent = 0`, so it is not the normalized per-pid tick
delta (which would be positive here). -/
theorem process_cpu_percent_ignores_ticks :
    (get_process_list 4096 [("1", some ⟨"init", 100, 50, 10⟩)] none none).map
        (·.cpu_percent) = [(0 : ℚ)]
    ∧ (get_process_list 4096 [("1", some ⟨"init", 250, 100, 10⟩)] none none).map
        (·.cpu_percent) = [(0 : ℚ)]
    ∧ (250 + 100 : Nat) ≠ 100 + 50 := by
  refine ⟨by decide, by decide, by decide⟩

/-- Claim C3 (amended): every record returned by `get_process_list` has
`cpu_percent = 0` — the source stores the literal constant `0` with the
comment that per-process delta tracking would be needed; no per-pid delta
sampling exists. -/
theorem process_cpu_percent_always_zero :
    ∀ (pageSize : Nat) (listing : List (String × Option ProcDetails))
      (sortBy : Option String) (limit : Option Nat) (r : ProcessRecord),
      r ∈ get_process_list pageSize listing sortBy limit → r.cpu_percent = 0 := by
  intro pageSize listing sortBy limit r h
  obtain ⟨e, _, _, d, _, hr⟩ := mem_walkProcesses.mp (mem_of_mem_get_process_list h)
  rw [hr]
  rfl

/-- Witness for the amended C3 at a concrete input. -/
theorem process_cpu_percent_always_zero_witness :
    (⟨1, "init", 0, 40960⟩ : ProcessRecord).cpu_percent = 0 :=
  process_cpu_percent_always_zero 4096 [("1", some ⟨"init", 100, 50, 10⟩)] none none
    ⟨1, "init", 0, 40960⟩ (by decide)

/-- Claim C4 (counterexample): two records with equal sort-key values keep
the enumeration order of the input, not ascending pid: with pids listed in
the order 5, 3 and equal `cpu_percent`, `sort_by='cpu'` returns pid 5 before
pid 3, while the claim requires the lower pid first. -/
theorem process_sort_tie_not_pid_ascending :
    (get_process_list 4096 [("5", some ⟨"a", 0, 0, 1⟩), ("3", some ⟨"b", 0, 0, 1⟩)]
        (some "cpu") none).map (·.pid) = [5, 3]
    ∧ ([5, 3] : List Nat) ≠ [3, 5] := by
  refine ⟨by decide, by decide⟩

/-- Claim C4 (amended): `get_process_list` with `sort_by='cpu'` or `'mem'`
returns the records in descending order of the chosen key (a permutation of
the walk when no limit is given), and ties keep the enumeration order of the
input — Python's `list.sort` is stable — which makes repeated calls on the
same input deterministic; ties are not re-ordered by ascending pid. -/
theorem process_sort_desc_stable :
    ∀ (pageSize : Nat) (listing : List (String × Option ProcDetails))
      (limit : Option Nat),
      ((get_process_list pageSize listing (some "cpu") limit).Sorted
        fun a b => b.cpu_percent ≤ a.cpu_percent)
      ∧ ((get_process_list pageSize listing (some "mem") limit).Sorted
        fun a b => b.memory_info ≤ a.memory_info)
      ∧ List.Perm (get_process_list pageSize listing (some "cpu") none)
          (walkProcesses pageSize listing)
      ∧ List.Perm (get_process_list pageSize listing (some "mem") none)
          (walkProcesses pageSize listing)
      ∧ (∀ a b : ProcessRecord, List.Sublist [a, b] (walkProcesses pageSize listing) →
          b.cpu_percent ≤ a.cpu_percent →
          List.Sublist [a, b] (get_process_list pageSize listing (some "cpu") none))
      ∧ (∀ a b : ProcessRecord, List.Sublist [a, b] (walkProcesses pageSize listing) →
          b.memory_info ≤ a.memory_info →
          List.Sublist [a, b] (get_process_list pageSize listing (some "mem") none)) := by
  intro pageSize listing limit
  refine ⟨?_, ?_, ?_, ?_, ?_, ?_⟩
  · rcases limit with _ | l
    · rw [get_process_list_cpu_none]
      exact sorted_sortByCpuDesc _
    · rw [get_process_list_cpu_some]
      split
      · exact (sorted_sortByCpuDesc _).sublist (List.take_sublist _ _)
      · exact sorted_sortByCpuDesc _
  · rcases limit with _ | l
    · rw [get_process_list_mem_none]
      exact sorted_sortByMemDesc _
    · rw [get_process_list_mem_some]
      split
      · exact (sorted_sortByMemDesc _).sublist (List.take_sublist _ _)
      · exact sorted_sortByMemDesc _
  · rw [get_process_list_cpu_none]
    exact List.perm_insertionSort _ _
  · rw [get_process_list_mem_none]
    exact List.perm_insertionSort _ _
  · intro a b hsub hab
    rw [get_process_list_cpu_none]
    exact List.pair_sublist_insertionSort hab hsub
  · intro a b hsub hab
    rw [get_process_list_mem_none]
    exact List.pair_sublist_insertionSort hab hsub

/-- Witness for the amended C4 at a concrete input. -/
theorem process_sort_desc_stable_witness :
    ((get_process_list 4096 [("5", some ⟨"a", 0, 0, 1⟩), ("3", some ⟨"b", 0, 0, 1⟩)]
        (some "cpu") (some 1)).Sorted fun a b => b.cpu_percent ≤ a.cpu_percent)
    ∧ List.Sublist [⟨5, "a", 0, 4096⟩, ⟨3, "b", 0, 4096⟩]
        (get_process_list 4096 [("5", some ⟨"a", 0, 0, 1⟩), ("3", some ⟨"b", 0, 0, 1⟩)]
          (some "cpu") none) :=
  ⟨(process_sort_desc_stable 4096
      [("5", some ⟨"a", 0, 0, 1⟩), ("3", some ⟨"b", 0, 0, 1⟩)] (some 1)).1,
   (process_sort_desc_stable 4096
      [("5", some ⟨"a", 0, 0, 1⟩), ("3", some ⟨"b", 0, 0, 1⟩)] none).2.2.2.2.1
     ⟨5, "a", 0, 4096⟩ ⟨3, "b", 0, 4096⟩ (by decide) (by decide)⟩

/-- Claim C6 (confirmed): every record returned by `get_process_list` is a
complete record built from a successfully read digit-named entry, and a pid
all of whose listing entries failed to read (vanished or permission-denied,
the caught `FileNotFoundError`/`PermissionError`/`IndexError`) is absent
from the result; the embedded walk is a total function, so no exception
propagates. -/
theorem process_walk_drops_unreadable :
    ∀ (pageSize : Nat) (listing : List (String × Option ProcDetails))
      (sortBy : Option String) (limit : Option Nat),
      (∀ r ∈ get_process_list pageSize listing sortBy limit,
        ∃ e ∈ listing, pyIsDigit e.1 = true ∧ ∃ d, e.2 = some d ∧
          r = mkProcessRecord pageSize (pyParseNat e.1) d)
      ∧ (∀ n : Nat,
          (∀ e ∈ listing, pyIsDigit e.1 = true → pyParseNat e.1 = n → e.2 = none) →
          ∀ r ∈ get_process_list pageSize listing sortBy limit, r.pid ≠ n) := by
  intro pageSize listing sortBy limit
  constructor
  · intro r h
    exact mem_walkProcesses.mp (mem_of_mem_get_process_list h)
  · intro n hn r h hpid
    obtain ⟨e, he, hnat, d, hd, hr⟩ := mem_walkProcesses.mp (mem_of_mem_get_process_list h)
    have hpe : pyParseNat e.1 = n := by
      rw [hr] at hpid
      exact hpid
    have := hn e he hnat hpe
    rw [this] at hd
    exact absurd hd (by simp)

/-- Witness for C6 at a concrete input: with pid 2 unreadable, the returned
record has pid 1 built from the readable entry, and no record has pid 2. -/
theorem process_walk_drops_unreadable_witness :
    (∃ e ∈ [("1", some (⟨"init", 1, 2, 3⟩ : ProcDetails)), ("2", none)],
      pyIsDigit e.1 = true ∧ ∃ d, e.2 = some d ∧
        (⟨1, "init", 0, 12288⟩ : ProcessRecord) = mkProcessRecord 4096 (pyParseNat e.1) d)
    ∧ (⟨1, "init", 0, 12288⟩ : ProcessRecord).pid ≠ 2 :=
  ⟨(process_walk_drops_unreadable 4096
      [("1", some ⟨"init", 1, 2, 3⟩), ("2", none)] none none).1
      ⟨1, "init", 0, 12288⟩ (by decide),
   (process_walk_drops_unreadable 4096
      [("1", some ⟨"init", 1, 2, 3⟩), ("2", none)] none none).2 2
      (by decide) ⟨1, "init", 0, 12288⟩ (by decide)⟩

/-- Claim C5 (confirmed): in every wrapper of the acceleration bridge
(`pulse/core.py`), an exception raised by the native accelerator is caught
and the supplied pure-Python fallback is invoked within the same call; the
result is the fallback's value, of the same type the accelerated path would
return, and no failure reaches the caller. -/
theorem bridge_fallback_on_accel_error :
    ∀ (α : Type) (e : Unit) (fbCpu : Unit → List ℚ) (fbA : Unit → α)
      (sortBy : Option String) (limit : Option Nat)
      (fbProc : Unit → List ProcessRecord),
      core_get_cpu_percents true (.error e) fbCpu = fbCpu ()
      ∧ core_get_memory_info true (.error e) fbA = fbA ()
      ∧ core_get_process_list true (fun _ _ => .error e) sortBy limit (some fbProc)
          = fbProc ()
      ∧ core_get_network_stats true (.error e) fbA = fbA ()
      ∧ core_get_disk_info true (.error e) fbA = fbA () := by
  intro α e fbCpu fbA sortBy limit fbProc
  exact ⟨rfl, rfl, rfl, rfl, rfl⟩

/-- Claim C7 (confirmed, spec-modelled): `kill_process` and `renice_process`
communicate the outcome of the underlying OS primitive as a returned result
message — a success message when the primitive succeeds and a failure
message when it fails — never an unguarded exception. -/
theorem process_control_returns_result :
    ∀ (osKill : Nat → Except String Unit)
      (osRenice : Nat → Int → Except String Unit) (pid : Nat) (value : Int),
      (∀ u : Unit, osKill pid = .ok u →
        kill_process osKill pid = "Process " ++ toString pid ++ " terminated")
      ∧ (∀ e : String, osKill pid = .error e →
        kill_process osKill pid = "Kill failed: " ++ e)
      ∧ (∀ u : Unit, osRenice pid value = .ok u →
        renice_process osRenice pid value =
          "Nice set to " ++ toString value ++ " for " ++ toString pid)
      ∧ (∀ e : String, osRenice pid value = .error e →
        renice_process osRenice pid value = "Renice failed: " ++ e) := by
  intro osKill osRenice pid value
  refine ⟨?_, ?_, ?_, ?_⟩ <;> intro x hx <;>
    simp [kill_process, renice_process, hx]

/-- Witness for C7 at concrete OS outcomes. -/
theorem process_control_returns_result_witness :
    kill_process (fun _ => .ok ()) 7 = "Process " ++ toString 7 ++ " terminated"
    ∧ kill_process (fun _ => .error "denied") 7 = "Kill failed: " ++ "denied"
    ∧ renice_process (fun _ _ => .ok ()) 7 5 =
        "Nice set to " ++ toString (5 : Int) ++ " for " ++ toString 7
    ∧ renice_process (fun _ _ => .error "denied") 7 5 = "Renice failed: " ++ "denied" :=
  ⟨(process_control_returns_result (fun _ => .ok ()) (fun _ _ => .ok ()) 7 5).1 () rfl,
   (process_control_returns_result (fun _ => .error "denied")
      (fun _ _ => .ok ()) 7 5).2.1 "denied" rfl,
   (process_control_returns_result (fun _ => .ok ())
      (fun _ _ => .ok ()) 7 5).2.2.1 () rfl,
   (process_control_returns_result (fun _ => .ok ())
      (fun _ _ => .error "denied") 7 5).2.2.2 "denied" rfl⟩

/-- Claim C8 (counterexample): on a read error `get_memory_info` does not
return an all-zero structure of the documented shape — the `total`,
`available` and `swap_total` keys are absent from the returned dict (only
`used`, `swap_used` and `percent` are present, as zeros). -/
theorem memory_error_path_missing_keys :
    get_memory_info none = ⟨none, none, none, none, none, none, none, 0, 0, 0⟩
    ∧ (get_memory_info none).total ≠ some 0
    ∧ (get_memory_info none).available ≠ some 0
    ∧ (get_memory_info none).swap_total ≠ some 0 := by
  refine ⟨rfl, by decide, by decide, by decide⟩

/-- Claim C8 (amended): `get_memory_info` never raises (it is a total
function of the read outcome); on a read error it degrades to a dict whose
only populated keys are `used = 0`, `swap_used = 0` and `percent = 0`, the
counter keys being absent rather than zero; and on every call
`used = total - available` where an absent `total`/`available` reads as 0. -/
theorem memory_info_used_and_error_shape :
    (∀ input, (get_memory_info input).used =
        ((memParsed input).total.getD 0 : ℤ) - ((memParsed input).available.getD 0 : ℤ)
      ∧ (get_memory_info input).swap_used =
        ((memParsed input).swap_total.getD 0 : ℤ) -
          ((memParsed input).swap_free.getD 0 : ℤ)
      ∧ (get_memory_info input).total = (memParsed input).total
      ∧ (get_memory_info input).available = (memParsed input).available
      ∧ (get_memory_info input).swap_total = (memParsed input).swap_total)
    ∧ get_memory_info none = ⟨none, none, none, none, none, none, none, 0, 0, 0⟩ :=
  ⟨fun _ => ⟨rfl, rfl, rfl, rfl, rfl⟩, rfl⟩

/-- Every entry produced by the mount-scan loop has a device outside the
incoming `seen` set, a `/dev/`-prefixed device, a successful `statvfs` at
its mountpoint, and is built by `mkDiskEntry` from some scanned mount. -/
theorem diskLoop_mem {statvfs : String → Option StatvfsResult} :
    ∀ (mounts : List MountEntry) (seen : List String) (d : DiskEntry),
      d ∈ diskLoop statvfs mounts seen →
      d.device ∉ seen ∧ pyStartsWith d.device "/dev/" = true ∧
        ∃ st, statvfs d.mountpoint = some st ∧ ∃ m ∈ mounts, d = mkDiskEntry m st := by
  intro mounts
  induction mounts with
  | nil =>
    intro seen d h
    simp [diskLoop] at h
  | cons m rest ih =>
    intro seen d h
    by_cases hg : ¬ pyStartsWith m.device "/dev/" = true ∨ m.device ∈ seen
    · rw [diskLoop, if_pos hg] at h
      obtain ⟨h1, h2, st, h3, m', h4, h5⟩ := ih seen d h
      exact ⟨h1, h2, st, h3, m', List.mem_cons_of_mem _ h4, h5⟩
    · push_neg at hg
      obtain ⟨hpre, hseen⟩ := hg
      rw [diskLoop, if_neg (by push_neg; exact ⟨hpre, hseen⟩)] at h
      cases hst : statvfs m.mountpoint with
      | none =>
        rw [hst] at h
        obtain ⟨h1, h2, st, h3, m', h4, h5⟩ := ih (m.device :: seen) d h
        exact ⟨fun hmem => h1 (List.mem_cons_of_mem _ hmem), h2, st, h3, m',
          List.mem_cons_of_mem _ h4, h5⟩
      | some st =>
        rw [hst] at h
        rcases List.mem_cons.mp h with hd | hd
        · subst hd
          exact ⟨hseen, hpre, st, hst, m, List.mem_cons_self _ _, rfl⟩
        · obtain ⟨h1, h2, st', h3, m', h4, h5⟩ := ih (m.device :: seen) d hd
          exact ⟨fun hmem => h1 (List.mem_cons_of_mem _ hmem), h2, st', h3, m',
            List.mem_cons_of_mem _ h4, h5⟩

/-- The devices reported by the mount-scan loop are pairwise distinct. -/
theorem diskLoop_devices_nodup {statvfs : String → Option StatvfsResult} :
    ∀ (mounts : List MountEntry) (seen : List String),
      ((diskLoop statvfs mounts seen).map (fun d => d.device)).Nodup := by
  intro mounts
  induction mounts with
  | nil =>
    intro seen
    simp [diskLoop]
  | cons m rest ih =>
    intro seen
    by_cases hg : ¬ pyStartsWith m.device "/dev/" = true ∨ m.device ∈ seen
    · rw [diskLoop, if_pos hg]
      exact ih seen
    · rw [diskLoop, if_neg hg]
      cases hst : statvfs m.mountpoint with
      | none => exact ih (m.device :: seen)
      | some st =>
        simp only [List.map_cons, List.nodup_cons]
        refine ⟨?_, ih (m.device :: seen)⟩
        intro hmem
        obtain ⟨d, hd, hdev⟩ := List.mem_map.mp hmem
        have h1 := (diskLoop_mem rest (m.device :: seen) d hd).1
        rw [hdev] at h1
        exact h1 (List.mem_cons_self _ _)

/-- Claim C9 (confirmed): in every list returned by the Linux
`get_disk_info`, the device fields are pairwise distinct (the `seen` set
reports each block device at most once), every device starts with `/dev/`,
and a mount whose `statvfs` fails contributes nothing — each returned entry
is built in full from a successful `statvfs` of one scanned mount. -/
theorem disk_info_invariants :
    ∀ (statvfs : String → Option StatvfsResult) (mounts : List MountEntry),
      ((get_disk_info statvfs mounts).map (fun d => d.device)).Nodup
      ∧ (∀ d ∈ get_disk_info statvfs mounts, pyStartsWith d.device "/dev/" = true)
      ∧ (∀ d ∈ get_disk_info statvfs mounts,
          ∃ st, statvfs d.mountpoint = some st ∧ ∃ m ∈ mounts, d = mkDiskEntry m st) := by
  intro f mounts
  refine ⟨diskLoop_devices_nodup mounts [], ?_, ?_⟩
  · intro d hd
    exact (diskLoop_mem mounts [] d hd).2.1
  · intro d hd
    exact (diskLoop_mem mounts [] d hd).2.2

/-- Witness for C9: a table where `/dev/sda1` is mounted twice, a virtual
filesystem is listed, and `statvfs` fails on `/dev/sdb1`; the single
resulting entry satisfies all three invariants. -/
theorem disk_info_invariants_witness :
    ((get_disk_info
        (fun mp => if mp = "/" then some ⟨100, 40, 4096⟩ else none)
        [⟨"/dev/sda1", "/", "ext4"⟩, ⟨"proc", "/proc", "proc"⟩,
         ⟨"/dev/sda1", "/mnt", "ext4"⟩, ⟨"/dev/sdb1", "/bad", "ext4"⟩]).map
      (fun d => d.device)).Nodup
    ∧ pyStartsWith (mkDiskEntry ⟨"/dev/sda1", "/", "ext4"⟩ ⟨100, 40, 4096⟩).device
        "/dev/" = true
    ∧ ∃ st, (fun mp => if mp = "/" then some (⟨100, 40, 4096⟩ : StatvfsResult) else none)
          (mkDiskEntry ⟨"/dev/sda1", "/", "ext4"⟩ ⟨100, 40, 4096⟩).mountpoint = some st
        ∧ ∃ m ∈ [⟨"/dev/sda1", "/", "ext4"⟩, ⟨"proc", "/proc", "proc"⟩,
            ⟨"/dev/sda1", "/mnt", "ext4"⟩, (⟨"/dev/sdb1", "/bad", "ext4"⟩ : MountEntry)],
          mkDiskEntry ⟨"/dev/sda1", "/", "ext4"⟩ ⟨100, 40, 4096⟩ = mkDiskEntry m st :=
  ⟨(disk_info_invariants
      (fun mp => if mp = "/" then some ⟨100, 40, 4096⟩ else none)
      [⟨"/dev/sda1", "/", "ext4"⟩, ⟨"proc", "/proc", "proc"⟩,
       ⟨"/dev/sda1", "/mnt", "ext4"⟩, ⟨"/dev/sdb1", "/bad", "ext4"⟩]).1,
   (disk_info_invariants
      (fun mp => if mp = "/" then some ⟨100, 40, 4096⟩ else none)
      [⟨"/dev/sda1", "/", "ext4"⟩, ⟨"proc", "/proc", "proc"⟩,
       ⟨"/dev/sda1", "/mnt", "ext4"⟩, ⟨"/dev/sdb1", "/bad", "ext4"⟩]).2.1
     (mkDiskEntry ⟨"/dev/sda1", "/", "ext4"⟩ ⟨100, 40, 4096⟩)
     (by simp [get_disk_info, diskLoop, pyStartsWith]),
   (disk_info_invariants
      (fun mp => if mp = "/" then some ⟨100, 40, 4096⟩ else none)
      [⟨"/dev/sda1", "/", "ext4"⟩, ⟨"proc", "/proc", "proc"⟩,
       ⟨"/dev/sda1", "/mnt", "ext4"⟩, ⟨"/dev/sdb1", "/bad", "ext4"⟩]).2.2
     (mkDiskEntry ⟨"/dev/sda1", "/", "ext4"⟩ ⟨100, 40, 4096⟩)
     (by simp [get_disk_info, diskLoop, pyStartsWith])⟩

/-- Claim C10 (confirmed): in the bridge `get_cpu_percents`, a falsy result
from the native accelerator (`pulse_core.get_cpu_percents() or
fallback_func()`) routes to the fallback exactly as a raised exception does:
an empty accelerator list yields the fallback's result, and whatever the
accelerator outcome, the caller receives either the fallback's value or a
nonempty accelerator list — never an empty list from the accelerator path. -/
theorem bridge_cpu_falsy_fallback :
    ∀ (v : List ℚ) (res : Except Unit (List ℚ)) (fb : Unit → List ℚ),
      core_get_cpu_percents true (.ok []) fb = fb ()
      ∧ core_get_cpu_percents true (.ok v) fb = (if v = [] then fb () else v)
      ∧ (core_get_cpu_percents true res fb = fb ()
          ∨ ∃ w, res = .ok w ∧ w ≠ [] ∧ core_get_cpu_percents true res fb = w) := by
  intro v res fb
  refine ⟨rfl, rfl, ?_⟩
  rcases res with e | w
  · exact Or.inl rfl
  · rcases w with _ | ⟨x, xs⟩
    · exact Or.inl rfl
    · exact Or.inr ⟨x :: xs, rfl, by simp, by simp [core_get_cpu_percents]⟩

end Pulse
